import Mathlib

/-!
Shallow embedding of `src/pydub/audio_buffer.py` (class `AudioBuffer`).

Python numbers (milliseconds, frame rates, decibel gains) are modelled as
rationals `ℚ`; the floating-point sample values stored in the numpy matrix
`_data` are modelled as real numbers `ℝ`.  A frame matrix of shape
`(frame_count, channels)` is a `List (List ℝ)`: the outer list runs over
frames, each inner list over channels.  Python code that can raise an
exception is embedded as an `Option`-valued function, `none` meaning the
call raises.
-/

namespace Pydub

/-- Truncation toward zero of a rational, the embedding of Python's `int()`
applied to a real-valued quantity. -/
def truncQ (q : ℚ) : ℤ := if 0 ≤ q then ⌊q⌋ else ⌈q⌉

/-- Python's `round` on an exact value: round half to even. -/
def pyRound (q : ℚ) : ℤ :=
  if q - ⌊q⌋ < 1 / 2 then ⌊q⌋
  else if 1 / 2 < q - ⌊q⌋ then ⌊q⌋ + 1
  else if 2 ∣ ⌊q⌋ then ⌊q⌋ else ⌊q⌋ + 1

/-- `10 ** e` for a (rational-valued) exponent, as a real number; the
amplitude corresponding to the decibel value `20 * e`. -/
noncomputable def pow10 (e : ℚ) : ℝ := (10 : ℝ) ^ (e : ℝ)

/-- Apply `f` to every element of a list together with its index, the first
element getting index `i0`.  Used to embed numpy's in-place mutation of a
row range `data[start:end]`. -/
def mapIdxFrom (f : ℕ → α → α) : ℕ → List α → List α
  | _, [] => []
  | i0, x :: xs => f i0 x :: mapIdxFrom f (i0 + 1) xs

/-- Split a flat list into consecutive chunks of length `c` (the embedding of
`reshape(-1, c)`; callers guard `c ≠ 0` and divisibility). -/
def toFrames (c : ℕ) : List α → List (List α)
  | [] => []
  | x :: xs => (x :: xs.take (c - 1)) :: toFrames c (xs.drop (c - 1))
termination_by l => l.length
decreasing_by simp [List.length_drop]; omega

/-- Normalization of a (possibly negative) slice bound against a length `n`,
following numpy/Python slicing rules. -/
def npIndex (n : ℕ) (i : ℤ) : ℕ := if i < 0 then (i + n).toNat else min i.toNat n

/-- Modelled from the spec: the immutable `AudioSegment` collaborator
(`src/` holds only `audio_buffer.py`; `audio_segment.py` is not included).
Per §6 of the spec it exposes `sample_width`, `frame_rate`, `channels`, and
its raw sample data as a flat integer sequence
(`get_array_of_samples`), and it can be constructed from a flat sample
sequence plus those three format fields. -/
structure AudioSegment where
  sample_width : ℕ
  frame_rate : ℚ
  channels : ℕ
  samples : List ℤ
  deriving DecidableEq

/-- The mutable buffer of `audio_buffer.py`: format metadata plus the numpy
float matrix `_data` of shape `(frame_count, channels)`. -/
structure AudioBuffer where
  sample_width : ℕ
  frame_rate : ℚ
  channels : ℕ
  data : List (List ℝ)

/-- `AudioBuffer.frame_count()` with no argument: `len(self._data)`. -/
def AudioBuffer.frame_count (b : AudioBuffer) : ℕ := b.data.length

/-- `AudioBuffer.frame_count(ms)` with a millisecond argument:
`ms * (self.frame_rate / 1000.0)`. -/
def AudioBuffer.frame_count_ms (b : AudioBuffer) (ms : ℚ) : ℚ :=
  ms * (b.frame_rate / 1000)

/-- `AudioBuffer.__len__`: `round(1000 * (self.frame_count() / self.frame_rate))`;
`none` embeds the `ZeroDivisionError` raised when `frame_rate` is zero. -/
def AudioBuffer.len (b : AudioBuffer) : Option ℤ :=
  if b.frame_rate = 0 then none
  else some (pyRound (1000 * ((b.frame_count : ℚ) / b.frame_rate)))

/-- `AudioBuffer.__init__` on the `AudioSegment` path: copy the format
fields, normalize the integer samples by `1 << (itemsize * 8 - 1)`, and
reshape to `(-1, channels)`.  `none` embeds the reshape error when the
sample count does not divide evenly into `channels`-sized frames (or
`channels` is zero). -/
noncomputable def AudioBuffer.ofSegment (seg : AudioSegment) : Option AudioBuffer :=
  if seg.channels ≠ 0 ∧ seg.samples.length % seg.channels = 0 then
    some { sample_width := seg.sample_width
           frame_rate := seg.frame_rate
           channels := seg.channels
           data := toFrames seg.channels
             (seg.samples.map fun (v : ℤ) =>
               (v : ℝ) / ((2 : ℝ) ^ (seg.sample_width * 8 - 1))) }
  else none

/-- Truncation toward zero of a real number, the embedding of numpy's
float-to-integer cast. -/
noncomputable def truncR (x : ℝ) : ℤ := if 0 ≤ x then ⌊x⌋ else ⌈x⌉

/-- Reduction of an integer into the signed 16-bit range by wrapping, the
behavior of `astype(np.int16)` on an out-of-range value. -/
def wrap16 (n : ℤ) : ℤ := (n + 32768) % 65536 - 32768

/-- `AudioBuffer.segment()`: rescale every sample by `32768`, cast to signed
16-bit, flatten the matrix, and build an `AudioSegment` carrying the
buffer's stored format fields. -/
noncomputable def AudioBuffer.segment (b : AudioBuffer) : AudioSegment :=
  { sample_width := b.sample_width
    frame_rate := b.frame_rate
    channels := b.channels
    samples := b.data.flatten.map fun x => wrap16 (truncR (x * 32768)) }

/-- Python falsiness of an optional numeric argument: `None` and `0` are
falsy (`if not start:` / `if not end:` in `fade`). -/
def falsy : Option ℚ → Bool
  | none => true
  | some x => decide (x = 0)

/-- The argument-defaulting prelude of `AudioBuffer.fade`:
`if not start: start = end - duration` and `if not end: end = start + duration`.
`none` embeds the `TypeError` raised when the arithmetic hits a `None`. -/
def resolveStartEnd (start end_ duration : Option ℚ) : Option (ℚ × ℚ) :=
  match (if falsy start then
           match end_, duration with
           | some e, some d => some (e - d)
           | _, _ => none
         else start) with
  | none => none
  | some s =>
    match (if falsy end_ then
             match duration with
             | some d => some (s + d)
             | none => none
           else end_) with
    | none => none
    | some e => some (s, e)

/-- Millisecond-to-frame conversion and clamping used by `fade`:
`max(int(min(self.frame_count(ms), self.frame_count())), 0)`. -/
def AudioBuffer.clampFrame (b : AudioBuffer) (ms : ℚ) : ℕ :=
  (max (truncQ (min (b.frame_count_ms ms) (b.frame_count : ℚ))) 0).toNat

/-- Entry `k` of `np.logspace(from_gain / 20, to_gain / 20, num = n)`:
ten to the `k`-th of `n` evenly spaced exponents running from
`from_gain / 20` to `to_gain / 20`. -/
noncomputable def gainAt (from_gain to_gain : ℚ) (n k : ℕ) : ℝ :=
  pow10 (from_gain / 20 + (k : ℚ) * (to_gain / 20 - from_gain / 20) / ((n : ℚ) - 1))

/-- The body of `AudioBuffer.fade` after argument resolution: clamp `start`
and `end` to frame indices and, when the resulting duration is positive,
multiply the gain curve into `_data[start:end]` (each frame is scaled by
one curve entry, identically in every channel, per `repeat(channels)`). -/
noncomputable def applyFade (b : AudioBuffer) (to_gain from_gain s e : ℚ) : AudioBuffer :=
  let si := b.clampFrame s
  let ei := b.clampFrame e
  if si < ei then
    { b with data := mapIdxFrom (fun i frame =>
        if si ≤ i ∧ i < ei then
          frame.map fun x => x * gainAt from_gain to_gain (ei - si) (i - si)
        else frame) 0 b.data }
  else b

/-- `AudioBuffer.fade(to_gain, from_gain, start, end, duration)`. -/
noncomputable def AudioBuffer.fade (b : AudioBuffer) (to_gain from_gain : ℚ)
    (start end_ duration : Option ℚ) : Option AudioBuffer :=
  (resolveStartEnd start end_ duration).map fun p => applyFade b to_gain from_gain p.1 p.2

/-- `AudioBuffer.fade_out(duration)`:
`self.fade(to_gain=-120, duration=duration, end=len(self)+1)`. -/
noncomputable def AudioBuffer.fade_out (b : AudioBuffer) (duration : ℚ) : Option AudioBuffer :=
  match b.len with
  | none => none
  | some l => b.fade (-120) 0 none (some ((l : ℚ) + 1)) (some duration)

/-- `AudioBuffer.fade_in(duration)`:
`self.fade(from_gain=-120, duration=duration, start=0)`. -/
noncomputable def AudioBuffer.fade_in (b : AudioBuffer) (duration : ℚ) : Option AudioBuffer :=
  b.fade 0 (-120) (some 0) none (some duration)

/-- The mutation step of `AudioBuffer.overlay` over the frame range
`[s1, e1)`: optionally scale this buffer's frames by
`10 ** (gain_during_overlay / 20)` (only when the argument is truthy), then
add the overlaid buffer's frames `0 .. e1 - s1` element-wise. -/
noncomputable def overlayApply (b seg : AudioBuffer) (s1 e1 : ℕ)
    (gain_during_overlay : Option ℚ) : AudioBuffer :=
  { b with data := mapIdxFrom (fun i frame =>
      if s1 ≤ i ∧ i < e1 then
        (match gain_during_overlay with
         | some gd => if gd = 0 then frame else frame.map fun x => x * pow10 (gd / 20)
         | none => frame).zipWith (fun x y => x + y) (seg.data.getD (i - s1) [])
      else frame) 0 b.data }

/-- `AudioBuffer.overlay(seg, position, gain_during_overlay)` on the
buffer-to-buffer path: `start = int(self.frame_count(position))`,
`end = int(min(start + buf.frame_count(), self.frame_count()))`, and mix
over `[start, end)` when non-empty.  Slice bounds follow numpy
normalization; `none` embeds the broadcast `ValueError` when the two slice
shapes disagree (possible only for a negative `start`). -/
noncomputable def AudioBuffer.overlay (b seg : AudioBuffer) (position : ℚ)
    (gain_during_overlay : Option ℚ) : Option AudioBuffer :=
  let start : ℤ := truncQ (b.frame_count_ms position)
  let endI : ℤ := min (start + (seg.frame_count : ℤ)) (b.frame_count : ℤ)
  if start < endI then
    let s1 := npIndex b.frame_count start
    let e1 := npIndex b.frame_count endI
    if e1 - s1 = min (endI - start).toNat seg.frame_count then
      some (overlayApply b seg s1 e1 gain_during_overlay)
    else none
  else some b

/-- The starting frame index of an overlay,
`start = int(self.frame_count(position))`, as a natural number (the claims
consider nonnegative starting positions). -/
def AudioBuffer.overlayStart (b : AudioBuffer) (position : ℚ) : ℕ :=
  (truncQ (b.frame_count_ms position)).toNat

/-- The end of an overlay's mixed range,
`end = int(min(start + buf.frame_count(), self.frame_count()))`. -/
def AudioBuffer.overlayEnd (b seg : AudioBuffer) (position : ℚ) : ℕ :=
  min (b.overlayStart position + seg.frame_count) b.frame_count

/-- Well-formedness of a buffer: every frame row has `channels` entries
(the reshape postcondition of construction). -/
def AudioBuffer.wf (b : AudioBuffer) : Prop :=
  ∀ f ∈ b.data, f.length = b.channels

/-- `res` has the same format fields and the same matrix shape as `b`. -/
def sameShape (b res : AudioBuffer) : Prop :=
  res.channels = b.channels ∧ res.frame_rate = b.frame_rate ∧
  res.sample_width = b.sample_width ∧
  res.data.length = b.data.length ∧
  ∀ i, (res.data.getD i []).length = (b.data.getD i []).length

/-- A concrete 4-frame mono buffer at 1000 frames per second (so one
millisecond is one frame), used to exercise the operations on explicit
inputs. -/
noncomputable def bufA : AudioBuffer :=
  { sample_width := 2, frame_rate := 1000, channels := 1
    data := [[1], [1], [1], [1]] }

/-- A concrete 2-frame mono buffer at 1000 frames per second. -/
noncomputable def bufB : AudioBuffer :=
  { sample_width := 2, frame_rate := 1000, channels := 1
    data := [[1], [1]] }

/-- A concrete 16-bit stereo segment with two frames. -/
def asegA : AudioSegment :=
  { sample_width := 2, frame_rate := 44100, channels := 2
    samples := [100, -100, 32767, -32768] }

/-- A mono buffer holding exactly 44100 frames at 44100 frames per second. -/
noncomputable def buf44 : AudioBuffer :=
  { sample_width := 2, frame_rate := 44100, channels := 1
    data := List.replicate 44100 [0] }

/-! ### Helper lemmas -/

theorem mapIdxFrom_length (f : ℕ → α → α) (i0 : ℕ) (l : List α) :
    (mapIdxFrom f i0 l).length = l.length := by
  induction l generalizing i0 with
  | nil => rfl
  | cons x xs ih => simp [mapIdxFrom, ih]

theorem getD_mapIdxFrom (f : ℕ → α → α) (i0 j : ℕ) (l : List α) (d : α)
    (hj : j < l.length) :
    (mapIdxFrom f i0 l).getD j d = f (i0 + j) (l.getD j d) := by
  induction l generalizing i0 j with
  | nil => simp at hj
  | cons x xs ih =>
    cases j with
    | zero => simp [mapIdxFrom]
    | succ j =>
      have hj2 : j < xs.length := by simpa using Nat.lt_of_succ_lt_succ hj
      simp only [mapIdxFrom, List.getD_cons_succ]
      rw [ih (i0 + 1) j hj2]
      congr 1
      omega

theorem getD_mapIdxFrom_default (f : ℕ → α → α) (i0 j : ℕ) (l : List α) (d : α)
    (hj : l.length ≤ j) :
    (mapIdxFrom f i0 l).getD j d = d :=
  List.getD_eq_default _ _ (by rw [mapIdxFrom_length]; exact hj)

theorem toFrames_flatten (c : ℕ) (l : List α) : (toFrames c l).flatten = l := by
  obtain ⟨n, hn⟩ : ∃ n, l.length ≤ n := ⟨l.length, le_refl _⟩
  induction n generalizing l with
  | zero =>
    have : l = [] := List.eq_nil_of_length_eq_zero (Nat.le_zero.mp hn)
    subst this; simp [toFrames]
  | succ n ih =>
    cases l with
    | nil => simp [toFrames]
    | cons x xs =>
      simp only [List.length_cons] at hn
      rw [toFrames, List.flatten_cons, ih (xs.drop (c - 1)) (by simp; omega)]
      simp [List.cons_append, List.take_append_drop]

theorem truncQ_intCast (n : ℤ) : truncQ (n : ℚ) = n := by
  unfold truncQ
  split
  · exact Int.floor_intCast n
  · exact Int.ceil_intCast n

theorem truncQ_le_truncQ (p q : ℚ) (h : p ≤ q) : truncQ p ≤ truncQ q := by
  unfold truncQ
  split_ifs with hp hq hq
  · exact Int.floor_mono h
  · exact absurd (le_trans hp h) hq
  · have h1 : ⌈p⌉ ≤ 0 := Int.ceil_le.mpr (by push_cast; linarith)
    have h2 : (0 : ℤ) ≤ ⌊q⌋ := Int.le_floor.mpr (by push_cast; exact hq)
    omega
  · exact Int.ceil_mono h

theorem truncQ_min_intCast (q : ℚ) (n : ℤ) :
    truncQ (min q (n : ℚ)) = min (truncQ q) n := by
  rcases le_total q (n : ℚ) with h | h
  · rw [min_eq_left h, min_eq_left]
    calc truncQ q ≤ truncQ (n : ℚ) := truncQ_le_truncQ _ _ h
      _ = n := truncQ_intCast n
  · rw [min_eq_right h, truncQ_intCast, min_eq_right]
    calc n = truncQ (n : ℚ) := (truncQ_intCast n).symm
      _ ≤ truncQ q := truncQ_le_truncQ _ _ h

theorem clampFrame_le (b : AudioBuffer) (ms : ℚ) :
    b.clampFrame ms ≤ b.frame_count := by
  unfold AudioBuffer.clampFrame
  rw [Int.toNat_le]
  have h1 : truncQ (min (b.frame_count_ms ms) (b.frame_count : ℚ)) ≤ (b.frame_count : ℤ) := by
    rw [show ((b.frame_count : ℕ) : ℚ) = (((b.frame_count : ℕ) : ℤ) : ℚ) by push_cast; ring,
      truncQ_min_intCast]
    exact min_le_right _ _
  omega

theorem clampFrame_eq_min_max (b : AudioBuffer) (ms : ℚ) :
    (b.clampFrame ms : ℤ) =
      min (max (truncQ (ms * b.frame_rate / 1000)) 0) (b.frame_count : ℤ) := by
  unfold AudioBuffer.clampFrame
  rw [Int.toNat_of_nonneg (le_max_right _ _)]
  rw [show ((b.frame_count : ℕ) : ℚ) = (((b.frame_count : ℕ) : ℤ) : ℚ) by push_cast; ring,
    truncQ_min_intCast]
  rw [show b.frame_count_ms ms = ms * b.frame_rate / 1000 by
    unfold AudioBuffer.frame_count_ms; ring]
  omega

theorem clampFrame_of_ge (b : AudioBuffer) (ms : ℚ)
    (h : (b.frame_count : ℚ) ≤ b.frame_count_ms ms) :
    b.clampFrame ms = b.frame_count := by
  unfold AudioBuffer.clampFrame
  rw [min_eq_right h,
    show ((b.frame_count : ℕ) : ℚ) = (((b.frame_count : ℕ) : ℤ) : ℚ) by push_cast; ring,
    truncQ_intCast]
  omega

theorem resolve_not_falsy (s e : ℚ) (du : Option ℚ) (hs : s ≠ 0) (he : e ≠ 0) :
    resolveStartEnd (some s) (some e) du = some (s, e) := by
  simp [resolveStartEnd, falsy, hs, he]

theorem resolve_falsy_start (st : Option ℚ) (e d : ℚ) (hst : falsy st = true) :
    resolveStartEnd st (some e) (some d) = some (e - d, e) := by
  unfold resolveStartEnd
  rw [if_pos hst]
  by_cases he : falsy (some e) = true
  · have he0 : e = 0 := by simpa [falsy] using he
    simp [he, he0]
  · simp [eq_false_of_ne_true he]

theorem resolve_start_sub (e d : ℚ) :
    resolveStartEnd (some (e - d)) (some e) (some d) = some (e - d, e) := by
  by_cases hs : falsy (some (e - d)) = true
  · exact resolve_falsy_start _ e d hs
  · unfold resolveStartEnd
    rw [if_neg (by simp [hs])]
    by_cases he : falsy (some e) = true
    · have he0 : e = 0 := by simpa [falsy] using he
      simp [he, he0]
    · simp [eq_false_of_ne_true he]

theorem resolve_falsy_end (s d : ℚ) (en : Option ℚ) (hs : s ≠ 0)
    (he : falsy en = true) :
    resolveStartEnd (some s) en (some d) = some (s, s + d) := by
  cases en with
  | none => simp [resolveStartEnd, falsy, hs]
  | some x =>
    have hx : x = 0 := by simpa [falsy] using he
    subst hx
    simp [resolveStartEnd, falsy, hs]

theorem resolve_end_add (s d : ℚ) (hs : s ≠ 0) :
    resolveStartEnd (some s) (some (s + d)) (some d) = some (s, s + d) := by
  by_cases he : falsy (some (s + d)) = true
  · exact resolve_falsy_end s d _ hs he
  · have he2 : ¬ s + d = 0 := by simpa [falsy] using he
    simp [resolveStartEnd, falsy, hs, he2]

theorem fade_eq_applyFade (b : AudioBuffer) (tg fg : ℚ) (st en du : Option ℚ)
    (s e : ℚ) (h : resolveStartEnd st en du = some (s, e)) :
    b.fade tg fg st en du = some (applyFade b tg fg s e) := by
  simp [AudioBuffer.fade, h]

theorem applyFade_fields (b : AudioBuffer) (tg fg s e : ℚ) :
    (applyFade b tg fg s e).channels = b.channels ∧
    (applyFade b tg fg s e).frame_rate = b.frame_rate ∧
    (applyFade b tg fg s e).sample_width = b.sample_width := by
  simp only [applyFade]
  split <;> exact ⟨rfl, rfl, rfl⟩

theorem applyFade_data_length (b : AudioBuffer) (tg fg s e : ℚ) :
    (applyFade b tg fg s e).data.length = b.data.length := by
  simp only [applyFade]
  split <;> simp [mapIdxFrom_length]

theorem applyFade_getD_inside (b : AudioBuffer) (tg fg s e : ℚ) (i : ℕ)
    (hlen : i < b.data.length) (h1 : b.clampFrame s ≤ i) (h2 : i < b.clampFrame e) :
    (applyFade b tg fg s e).data.getD i [] =
      (b.data.getD i []).map fun x =>
        x * gainAt fg tg (b.clampFrame e - b.clampFrame s) (i - b.clampFrame s) := by
  have hlt : b.clampFrame s < b.clampFrame e := lt_of_le_of_lt h1 h2
  simp only [applyFade, if_pos hlt]
  rw [getD_mapIdxFrom _ 0 i b.data [] hlen]
  simp [h1, h2]

theorem applyFade_getD_outside (b : AudioBuffer) (tg fg s e : ℚ) (i : ℕ)
    (h : i < b.clampFrame s ∨ b.clampFrame e ≤ i) :
    (applyFade b tg fg s e).data.getD i [] = b.data.getD i [] := by
  simp only [applyFade]
  split
  · by_cases hlen : i < b.data.length
    · rw [getD_mapIdxFrom _ 0 i b.data [] hlen]
      have hguard : ¬ (b.clampFrame s ≤ 0 + i ∧ 0 + i < b.clampFrame e) := by omega
      rw [if_neg hguard]
    · rw [List.getD_eq_default _ _ (by rw [mapIdxFrom_length]; omega),
        List.getD_eq_default _ _ (by omega)]
  · rfl

theorem overlay_pos_eq (b seg : AudioBuffer) (pos : ℚ) (g : Option ℚ)
    (hpos : 0 ≤ truncQ (b.frame_count_ms pos))
    (h : b.overlayStart pos < b.overlayEnd seg pos) :
    b.overlay seg pos g =
      some (overlayApply b seg (b.overlayStart pos) (b.overlayEnd seg pos) g) := by
  simp only [AudioBuffer.overlayStart, AudioBuffer.overlayEnd] at h ⊢
  have h0 : ¬ (truncQ (b.frame_count_ms pos) < 0) := not_lt.mpr hpos
  have h0e : ¬ (min (truncQ (b.frame_count_ms pos) + (seg.frame_count : ℤ))
      (b.frame_count : ℤ) < 0) := by omega
  simp only [AudioBuffer.overlay, npIndex, if_neg h0, if_neg h0e]
  rw [if_pos (show truncQ (b.frame_count_ms pos) <
      min (truncQ (b.frame_count_ms pos) + (seg.frame_count : ℤ)) (b.frame_count : ℤ) by
    omega)]
  have s1eq : min (truncQ (b.frame_count_ms pos)).toNat b.frame_count =
      (truncQ (b.frame_count_ms pos)).toNat := by omega
  have e1eq : min (min (truncQ (b.frame_count_ms pos) + (seg.frame_count : ℤ))
        (b.frame_count : ℤ)).toNat b.frame_count =
      min ((truncQ (b.frame_count_ms pos)).toNat + seg.frame_count) b.frame_count := by
    omega
  rw [s1eq, e1eq, if_pos (by omega)]

theorem overlay_noop_eq (b seg : AudioBuffer) (pos : ℚ) (g : Option ℚ)
    (hpos : 0 ≤ truncQ (b.frame_count_ms pos))
    (h : b.overlayEnd seg pos ≤ b.overlayStart pos) :
    b.overlay seg pos g = some b := by
  simp only [AudioBuffer.overlayStart, AudioBuffer.overlayEnd] at h
  simp only [AudioBuffer.overlay]
  rw [if_neg (show ¬ (truncQ (b.frame_count_ms pos) <
      min (truncQ (b.frame_count_ms pos) + (seg.frame_count : ℤ)) (b.frame_count : ℤ)) by
    omega)]

theorem overlayApply_fields (b seg : AudioBuffer) (s1 e1 : ℕ) (g : Option ℚ) :
    (overlayApply b seg s1 e1 g).channels = b.channels ∧
    (overlayApply b seg s1 e1 g).frame_rate = b.frame_rate ∧
    (overlayApply b seg s1 e1 g).sample_width = b.sample_width :=
  ⟨rfl, rfl, rfl⟩

theorem overlayApply_data_length (b seg : AudioBuffer) (s1 e1 : ℕ) (g : Option ℚ) :
    (overlayApply b seg s1 e1 g).data.length = b.data.length := by
  simp [overlayApply, mapIdxFrom_length]

theorem overlayApply_getD_outside (b seg : AudioBuffer) (s1 e1 : ℕ) (g : Option ℚ)
    (i : ℕ) (h : i < s1 ∨ e1 ≤ i) :
    (overlayApply b seg s1 e1 g).data.getD i [] = b.data.getD i [] := by
  simp only [overlayApply]
  by_cases hlen : i < b.data.length
  · rw [getD_mapIdxFrom _ 0 i b.data [] hlen]
    have hguard : ¬ (s1 ≤ 0 + i ∧ 0 + i < e1) := by omega
    rw [if_neg hguard]
  · rw [List.getD_eq_default _ _ (by rw [mapIdxFrom_length]; omega),
      List.getD_eq_default _ _ (by omega)]

theorem overlayApply_getD_inside (b seg : AudioBuffer) (s1 e1 : ℕ) (g : Option ℚ)
    (i : ℕ) (hlen : i < b.data.length) (h1 : s1 ≤ i) (h2 : i < e1) :
    (overlayApply b seg s1 e1 g).data.getD i [] =
      (match g with
       | some gd =>
         if gd = 0 then b.data.getD i []
         else (b.data.getD i []).map fun x => x * pow10 (gd / 20)
       | none => b.data.getD i []).zipWith (fun x y => x + y)
        (seg.data.getD (i - s1) []) := by
  simp only [overlayApply]
  rw [getD_mapIdxFrom _ 0 i b.data [] hlen]
  simp [h1, h2]

/-! ### Claim theorems -/

/-- C1: the spec states that `fade_in(duration)` applies a gain ramp from
-120 dB up to 0 dB starting at frame 0 and returns the buffer.  The code
instead raises a `TypeError` on every call: `fade_in` passes `start=0`,
which is falsy, so `fade` recomputes `start = end - duration` with
`end = None`.  The embedded `fade_in` therefore never returns a buffer. -/
theorem fade_in_always_raises (b : AudioBuffer) (d : ℚ) : b.fade_in d = none := by
  simp [AudioBuffer.fade_in, AudioBuffer.fade, resolveStartEnd, falsy]

/-- C2: a falsy `start` (`None`, or an explicitly passed `0`) is recomputed
as `end - duration` before the millisecond-to-frame conversion, so
`fade(start=0, end=e, duration=d)` behaves identically to
`fade(start=e-d, end=e, duration=d)`; symmetrically a falsy `end` with a
given non-falsy `start` is recomputed as `start + duration`. -/
theorem fade_falsy_defaults (b : AudioBuffer) (tg fg e s d : ℚ) (st : Option ℚ)
    (hst : falsy st = true) (hs : s ≠ 0) :
    b.fade tg fg st (some e) (some d) = b.fade tg fg (some (e - d)) (some e) (some d) ∧
    b.fade tg fg (some s) (some 0) (some d) =
      b.fade tg fg (some s) (some (s + d)) (some d) := by
  constructor
  · rw [fade_eq_applyFade b tg fg st (some e) (some d) (e - d) e
        (resolve_falsy_start st e d hst),
      fade_eq_applyFade b tg fg (some (e - d)) (some e) (some d) (e - d) e
        (resolve_start_sub e d)]
  · rw [fade_eq_applyFade b tg fg (some s) (some 0) (some d) s (s + d)
        (resolve_falsy_end s d (some 0) hs (by simp [falsy])),
      fade_eq_applyFade b tg fg (some s) (some (s + d)) (some d) s (s + d)
        (resolve_end_add s d hs)]

/-- Witness for C2 on the concrete buffer `bufA`,
with `start = 0`, `end = 3`, `duration = 2` (and `start = 5`, `end = 0`). -/
theorem fade_falsy_defaults_witness :
    bufA.fade 0 0 (some 0) (some 3) (some 2) =
      bufA.fade 0 0 (some (3 - 2)) (some 3) (some 2) ∧
    bufA.fade 0 0 (some 5) (some 0) (some 2) =
      bufA.fade 0 0 (some 5) (some (5 + 2)) (some 2) :=
  fade_falsy_defaults bufA 0 0 3 5 2 (some 0) (by simp [falsy]) (by norm_num)

/-- C5: a `fade` call whose clamped duration is not positive (clamped
`start >= end`) leaves every sample unchanged and returns the buffer, with
no error raised. -/
theorem fade_noop (b : AudioBuffer) (tg fg : ℚ) (st en du : Option ℚ) (s e : ℚ)
    (hres : resolveStartEnd st en du = some (s, e))
    (h : b.clampFrame e ≤ b.clampFrame s) :
    b.fade tg fg st en du = some b := by
  rw [fade_eq_applyFade b tg fg st en du s e hres]
  simp only [applyFade, if_neg (not_lt.mpr h)]

/-- Witness for C5: fading `bufA` over the empty range `[3, 1)`. -/
theorem fade_noop_witness : bufA.fade 0 0 (some 3) (some 1) none = some bufA := by
  refine fade_noop bufA 0 0 (some 3) (some 1) none 3 1
    (resolve_not_falsy 3 1 none (by norm_num) (by norm_num)) ?_
  have h1 := clampFrame_eq_min_max bufA 1
  have h3 := clampFrame_eq_min_max bufA 3
  have e1 : truncQ ((1 : ℚ) * bufA.frame_rate / 1000) = 1 := by
    norm_num [bufA, truncQ]
  have e3 : truncQ ((3 : ℚ) * bufA.frame_rate / 1000) = 3 := by
    norm_num [bufA, truncQ]
  rw [e1] at h1
  rw [e3] at h3
  have hfc : bufA.frame_count = 4 := by
    simp [bufA, AudioBuffer.frame_count]
  rw [hfc] at h1 h3
  omega

/-- C9: `len` returns `round(1000 * frame_count() / frame_rate)`
milliseconds, and fails with a division error exactly when `frame_rate` is
zero. -/
theorem len_formula (b : AudioBuffer) :
    (b.len = none ↔ b.frame_rate = 0) ∧
    (b.frame_rate ≠ 0 →
      b.len = some (pyRound (1000 * ((b.frame_count : ℚ) / b.frame_rate)))) := by
  constructor
  · constructor
    · intro h
      by_contra hr
      simp [AudioBuffer.len, hr] at h
    · intro h
      simp [AudioBuffer.len, h]
  · intro h
    simp [AudioBuffer.len, h]

/-- Witness for C9: a buffer holding exactly 44100 frames at frame rate
44100 reports a length of 1000 milliseconds. -/
theorem len_formula_witness : buf44.len = some 1000 := by
  have h := (len_formula buf44).2 (by norm_num [buf44])
  rw [h]
  have hfc : buf44.frame_count = 44100 := by
    show (List.replicate 44100 ([0] : List ℝ)).length = 44100
    rw [List.length_replicate]
  rw [hfc]
  norm_num [buf44, pyRound]

/-- C3: in `fade`, `start` and `end` are converted from milliseconds to
frame indices (`ms * frame_rate / 1000`, truncated to int) and clamped to
`[0, frame_count()]`; when the requested `end` lies at or beyond the
buffer's end, the clamped `end` equals `frame_count()`, so the applied
ramp duration is `frame_count() - start`, not the requested duration. -/
theorem fade_clamping (b : AudioBuffer) (s e : ℚ)
    (he : (b.frame_count : ℚ) ≤ b.frame_count_ms e) :
    (∀ ms : ℚ, (b.clampFrame ms : ℤ) =
      min (max (truncQ (ms * b.frame_rate / 1000)) 0) (b.frame_count : ℤ)) ∧
    b.clampFrame e = b.frame_count ∧
    b.clampFrame e - b.clampFrame s = b.frame_count - b.clampFrame s := by
  refine ⟨fun ms => clampFrame_eq_min_max b ms, clampFrame_of_ge b e he, ?_⟩
  rw [clampFrame_of_ge b e he]

/-- Witness for C3: fading `bufA` (4 frames) up to the requested
millisecond position 10, beyond the buffer's end. -/
theorem fade_clamping_witness :
    (∀ ms : ℚ, (bufA.clampFrame ms : ℤ) =
      min (max (truncQ (ms * bufA.frame_rate / 1000)) 0) (bufA.frame_count : ℤ)) ∧
    bufA.clampFrame 10 = bufA.frame_count ∧
    bufA.clampFrame 10 - bufA.clampFrame 1 = bufA.frame_count - bufA.clampFrame 1 :=
  fade_clamping bufA 1 10
    (by norm_num [bufA, AudioBuffer.frame_count_ms, AudioBuffer.frame_count])

theorem gainAt_claim_form (fg tg : ℚ) (n k : ℕ) :
    gainAt fg tg n k =
      pow10 (fg / 20 + (k : ℚ) * (tg - fg) / (20 * ((n : ℚ) - 1))) := by
  unfold gainAt
  congr 1
  rw [div_sub_div_same, mul_div_assoc, div_div, ← mul_div_assoc]

/-- C4: when the post-clamping duration of a `fade` call is positive, the
samples in `[start, end)` are multiplied, identically in every channel, by
the gain curve whose `k`-th value is
`10 ^ (from_gain/20 + k*(to_gain - from_gain)/(20*(duration-1)))`, and
every sample outside `[start, end)` is unchanged. -/
theorem fade_gain_curve (b : AudioBuffer) (tg fg : ℚ) (st en du : Option ℚ) (s e : ℚ)
    (hres : resolveStartEnd st en du = some (s, e))
    (hdur : b.clampFrame s < b.clampFrame e) :
    b.fade tg fg st en du = some (applyFade b tg fg s e) ∧
    (applyFade b tg fg s e).data.length = b.data.length ∧
    (∀ i, i < b.data.length → b.clampFrame s ≤ i → i < b.clampFrame e →
      (applyFade b tg fg s e).data.getD i [] =
        (b.data.getD i []).map fun x => x *
          pow10 (fg / 20 + ((i - b.clampFrame s : ℕ) : ℚ) * (tg - fg) /
            (20 * (((b.clampFrame e - b.clampFrame s : ℕ) : ℚ) - 1)))) ∧
    (∀ i, i < b.clampFrame s ∨ b.clampFrame e ≤ i →
      (applyFade b tg fg s e).data.getD i [] = b.data.getD i []) := by
  have hpos : 0 < b.clampFrame e - b.clampFrame s := by omega
  refine ⟨fade_eq_applyFade b tg fg st en du s e hres,
    applyFade_data_length b tg fg s e, fun i hlen h1 h2 => ?_,
    fun i h => applyFade_getD_outside b tg fg s e i h⟩
  rw [applyFade_getD_inside b tg fg s e i hlen h1 h2, gainAt_claim_form]

/-- Witness for C4: fading `bufA` from millisecond 1 to millisecond 3. -/
theorem fade_gain_curve_witness :
    bufA.fade (-6) 0 (some 1) (some 3) none = some (applyFade bufA (-6) 0 1 3) ∧
    (applyFade bufA (-6) 0 1 3).data.length = bufA.data.length ∧
    (∀ i, i < bufA.data.length → bufA.clampFrame 1 ≤ i → i < bufA.clampFrame 3 →
      (applyFade bufA (-6) 0 1 3).data.getD i [] =
        (bufA.data.getD i []).map fun x => x *
          pow10 ((0 : ℚ) / 20 + ((i - bufA.clampFrame 1 : ℕ) : ℚ) * ((-6 : ℚ) - 0) /
            (20 * (((bufA.clampFrame 3 - bufA.clampFrame 1 : ℕ) : ℚ) - 1)))) ∧
    (∀ i, i < bufA.clampFrame 1 ∨ bufA.clampFrame 3 ≤ i →
      (applyFade bufA (-6) 0 1 3).data.getD i [] = bufA.data.getD i []) := by
  refine fade_gain_curve bufA (-6) 0 (some 1) (some 3) none 1 3
    (resolve_not_falsy 1 3 none (by norm_num) (by norm_num)) ?_
  have h1 := clampFrame_eq_min_max bufA 1
  have h3 := clampFrame_eq_min_max bufA 3
  have e1 : truncQ ((1 : ℚ) * bufA.frame_rate / 1000) = 1 := by
    norm_num [bufA, truncQ]
  have e3 : truncQ ((3 : ℚ) * bufA.frame_rate / 1000) = 3 := by
    norm_num [bufA, truncQ]
  rw [e1] at h1
  rw [e3] at h3
  have hfc : bufA.frame_count = 4 := by
    simp [bufA, AudioBuffer.frame_count]
  rw [hfc] at h1 h3
  omega

/-- C6: an overlay's mixed range ends at
`min(start + source frame count, frame_count())`: only frames in
`[start, frame_count())` can change, there is no error, no out-of-bounds
access (the frame count is preserved) and no looping, and a `start` at or
past `frame_count()` leaves the target unchanged. -/
theorem overlay_truncates (b seg : AudioBuffer) (pos : ℚ) (g : Option ℚ)
    (hpos : 0 ≤ truncQ (b.frame_count_ms pos)) :
    ∃ res, b.overlay seg pos g = some res ∧
      res.data.length = b.data.length ∧
      (∀ i, i < b.overlayStart pos ∨ b.overlayEnd seg pos ≤ i →
        res.data.getD i [] = b.data.getD i []) ∧
      (b.frame_count ≤ b.overlayStart pos → res = b) := by
  by_cases h : b.overlayStart pos < b.overlayEnd seg pos
  · refine ⟨_, overlay_pos_eq b seg pos g hpos h,
      overlayApply_data_length b seg _ _ g,
      fun i hi => overlayApply_getD_outside b seg _ _ g i hi, fun hfc => ?_⟩
    exfalso
    have hle : b.overlayEnd seg pos ≤ b.frame_count := min_le_right _ _
    omega
  · exact ⟨b, overlay_noop_eq b seg pos g hpos (not_lt.mp h), rfl,
      fun i hi => rfl, fun hfc => rfl⟩

/-- Witness for C6: overlaying the 2-frame `bufB` onto the 4-frame `bufA`
at position 3, so the requested range would run past the target's end. -/
theorem overlay_truncates_witness :
    ∃ res, bufA.overlay bufB 3 none = some res ∧
      res.data.length = bufA.data.length ∧
      (∀ i, i < bufA.overlayStart 3 ∨ bufA.overlayEnd bufB 3 ≤ i →
        res.data.getD i [] = bufA.data.getD i []) ∧
      (bufA.frame_count ≤ bufA.overlayStart 3 → res = bufA) :=
  overlay_truncates bufA bufB 3 none
    (by norm_num [bufA, AudioBuffer.frame_count_ms, truncQ])

/-- C7: an overlay with a truthy `gain_during_overlay = g` first scales the
target's samples in the mixed range by `10 ^ (g/20)` and only then adds the
source's samples element-wise; for `g = -20` the scale factor is exactly
`0.1`. -/
theorem overlay_ducking (b seg : AudioBuffer) (pos : ℚ) (g : ℚ) (hg : g ≠ 0)
    (hpos : 0 ≤ truncQ (b.frame_count_ms pos)) :
    (∃ res, b.overlay seg pos (some g) = some res ∧
      ∀ i, b.overlayStart pos ≤ i → i < b.overlayEnd seg pos →
        res.data.getD i [] =
          ((b.data.getD i []).map fun x => x * pow10 (g / 20)).zipWith
            (fun x y => x + y) (seg.data.getD (i - b.overlayStart pos) [])) ∧
    pow10 ((-20 : ℚ) / 20) = 1 / 10 := by
  constructor
  · by_cases h : b.overlayStart pos < b.overlayEnd seg pos
    · refine ⟨_, overlay_pos_eq b seg pos (some g) hpos h, fun i h1 h2 => ?_⟩
      have hlen : i < b.data.length := by
        have hle : b.overlayEnd seg pos ≤ b.frame_count := min_le_right _ _
        have : b.frame_count = b.data.length := rfl
        omega
      rw [overlayApply_getD_inside b seg _ _ (some g) i hlen h1 h2]
      simp [hg]
    · exact ⟨b, overlay_noop_eq b seg pos (some g) hpos (not_lt.mp h),
        fun i h1 h2 => absurd (lt_of_le_of_lt h1 h2) h⟩
  · have he : ((-20 : ℚ) / 20) = (-1 : ℚ) := by norm_num
    rw [he]
    unfold pow10
    rw [show (((-1 : ℚ) : ℝ)) = (-1 : ℝ) by push_cast; ring, Real.rpow_neg_one]
    norm_num

/-- Witness for C7: overlaying `bufB` onto `bufA` at position 1 with
`gain_during_overlay = -20`. -/
theorem overlay_ducking_witness :
    (∃ res, bufA.overlay bufB 1 (some (-20)) = some res ∧
      ∀ i, bufA.overlayStart 1 ≤ i → i < bufA.overlayEnd bufB 1 →
        res.data.getD i [] =
          ((bufA.data.getD i []).map fun x => x * pow10 ((-20 : ℚ) / 20)).zipWith
            (fun x y => x + y) (bufB.data.getD (i - bufA.overlayStart 1) [])) ∧
    pow10 ((-20 : ℚ) / 20) = 1 / 10 :=
  overlay_ducking bufA bufB 1 (-20) (by norm_num)
    (by norm_num [bufA, AudioBuffer.frame_count_ms, truncQ])

theorem truncR_intCast (n : ℤ) : truncR (n : ℝ) = n := by
  unfold truncR
  split
  · exact Int.floor_intCast n
  · exact Int.ceil_intCast n

theorem wrap16_eq_self (n : ℤ) (h1 : -32768 ≤ n) (h2 : n < 32768) : wrap16 n = n := by
  unfold wrap16
  omega

theorem map_eq_self_of {f : α → α} (l : List α) (h : ∀ v ∈ l, f v = v) :
    l.map f = l := by
  induction l with
  | nil => rfl
  | cons x xs ih =>
    rw [List.map_cons, h x (by simp), ih fun v hv => h v (by simp [hv])]

/-- C8: for a 16-bit segment (samples in the signed 16-bit range, evenly
divisible into frames), converting to a buffer — which normalizes each
integer sample by `2 ^ 15` — and immediately converting back — which
multiplies by `32768` and casts to signed 16-bit — reproduces the original
segment exactly. -/
theorem buffer_segment_roundtrip (seg : AudioSegment) (hw : seg.sample_width = 2)
    (hc : seg.channels ≠ 0) (hd : seg.samples.length % seg.channels = 0)
    (hrange : ∀ v ∈ seg.samples, -32768 ≤ v ∧ v < 32768) :
    (AudioBuffer.ofSegment seg).map AudioBuffer.segment = some seg := by
  obtain ⟨sw, fr, ch, samples⟩ := seg
  simp only at hw hc hd hrange
  subst hw
  rw [AudioBuffer.ofSegment, if_pos ⟨hc, hd⟩]
  simp only [Option.map_some']
  unfold AudioBuffer.segment
  simp only [Option.some.injEq, AudioSegment.mk.injEq, true_and]
  rw [toFrames_flatten, List.map_map]
  refine map_eq_self_of samples fun v hv => ?_
  obtain ⟨hv1, hv2⟩ := hrange v hv
  show wrap16 (truncR ((v : ℝ) / ((2 : ℝ) ^ (2 * 8 - 1)) * 32768)) = v
  rw [show ((2 : ℝ) ^ (2 * 8 - 1)) = 32768 by norm_num,
    div_mul_cancel₀ _ (by norm_num : (32768 : ℝ) ≠ 0),
    truncR_intCast, wrap16_eq_self v hv1 hv2]

/-- Witness for C8 on the concrete 16-bit stereo segment `asegA`. -/
theorem buffer_segment_roundtrip_witness :
    (AudioBuffer.ofSegment asegA).map AudioBuffer.segment = some asegA :=
  buffer_segment_roundtrip asegA rfl (by norm_num [asegA])
    (by norm_num [asegA]) (by decide)

theorem getD_mem (l : List α) (i : ℕ) (d : α) (h : i < l.length) :
    l.getD i d ∈ l := by
  rw [List.getD_eq_getElem l d h]
  exact List.getElem_mem h

theorem sameShape_refl (b : AudioBuffer) : sameShape b b :=
  ⟨rfl, rfl, rfl, rfl, fun _ => rfl⟩

theorem applyFade_sameShape (b : AudioBuffer) (tg fg s e : ℚ) :
    sameShape b (applyFade b tg fg s e) := by
  obtain ⟨h1, h2, h3⟩ := applyFade_fields b tg fg s e
  refine ⟨h1, h2, h3, applyFade_data_length b tg fg s e, fun i => ?_⟩
  by_cases hlen : i < b.data.length
  · by_cases hin : b.clampFrame s ≤ i ∧ i < b.clampFrame e
    · rw [applyFade_getD_inside b tg fg s e i hlen hin.1 hin.2, List.length_map]
    · rw [applyFade_getD_outside b tg fg s e i (by omega)]
  · rw [List.getD_eq_default _ _ (by rw [applyFade_data_length]; omega),
      List.getD_eq_default _ _ (by omega)]

theorem fade_sameShape (b : AudioBuffer) (tg fg : ℚ) (st en du : Option ℚ)
    (res : AudioBuffer) (h : b.fade tg fg st en du = some res) :
    sameShape b res := by
  cases hr : resolveStartEnd st en du with
  | none => rw [AudioBuffer.fade, hr] at h; simp at h
  | some p =>
    rw [fade_eq_applyFade b tg fg st en du p.1 p.2 (by rw [hr])] at h
    rw [← Option.some.inj h]
    exact applyFade_sameShape b tg fg p.1 p.2

theorem overlayApply_getD_length (b seg : AudioBuffer) (s1 e1 : ℕ) (g : Option ℚ)
    (i : ℕ) (hb : b.wf) (hseg : seg.wf) (hcc : seg.channels = b.channels)
    (hes : e1 - s1 ≤ seg.data.length) :
    ((overlayApply b seg s1 e1 g).data.getD i []).length =
      (b.data.getD i []).length := by
  by_cases hlen : i < b.data.length
  · by_cases hin : s1 ≤ i ∧ i < e1
    · rw [overlayApply_getD_inside b seg s1 e1 g i hlen hin.1 hin.2]
      have hsl : i - s1 < seg.data.length := by omega
      have hblen : (b.data.getD i []).length = b.channels :=
        hb _ (getD_mem _ _ _ hlen)
      have hslen : (seg.data.getD (i - s1) []).length = seg.channels :=
        hseg _ (getD_mem _ _ _ hsl)
      cases g with
      | none => rw [List.length_zipWith, hblen, hslen, hcc, min_self]
      | some gd =>
        dsimp only
        by_cases hgd : gd = 0
        · rw [if_pos hgd, List.length_zipWith, hblen, hslen, hcc, min_self]
        · rw [if_neg hgd, List.length_zipWith, List.length_map, hblen, hslen, hcc,
            min_self]
    · rw [overlayApply_getD_outside b seg s1 e1 g i (by omega)]
  · rw [List.getD_eq_default _ _ (by rw [overlayApply_data_length]; omega),
      List.getD_eq_default _ _ (by omega)]

theorem overlay_sameShape (b seg : AudioBuffer) (pos : ℚ) (g : Option ℚ)
    (res : AudioBuffer) (hb : b.wf) (hseg : seg.wf)
    (hcc : seg.channels = b.channels) (h : b.overlay seg pos g = some res) :
    sameShape b res := by
  simp only [AudioBuffer.overlay] at h
  split_ifs at h with h1 h2
  · rw [← Option.some.inj h]
    obtain ⟨f1, f2, f3⟩ := overlayApply_fields b seg
      (npIndex b.frame_count (truncQ (b.frame_count_ms pos)))
      (npIndex b.frame_count
        (min (truncQ (b.frame_count_ms pos) + (seg.frame_count : ℤ))
          (b.frame_count : ℤ))) g
    have hsc : seg.frame_count = seg.data.length := rfl
    refine ⟨f1, f2, f3, overlayApply_data_length b seg _ _ g, fun i => ?_⟩
    exact overlayApply_getD_length b seg _ _ g i hb hseg hcc (by omega)
  · rw [← Option.some.inj h]
    exact sameShape_refl b

/-- C10: each mutating operation, when it returns a buffer, leaves the
`channels`, `frame_rate` and `sample_width` fields unchanged and preserves
the sample matrix's shape (frame count and per-frame channel dimension);
only sample values change.  (`fade_in` never returns a buffer, see C1, so
its clause holds vacuously — and the Python call, raising before touching
`_data`, likewise mutates nothing.) -/
theorem mutators_preserve_shape (b seg : AudioBuffer) (tg fg d pos : ℚ)
    (st en du : Option ℚ) (g : Option ℚ)
    (hb : b.wf) (hseg : seg.wf) (hcc : seg.channels = b.channels) :
    (∀ res, b.fade tg fg st en du = some res → sameShape b res) ∧
    (∀ res, b.fade_out d = some res → sameShape b res) ∧
    (∀ res, b.fade_in d = some res → sameShape b res) ∧
    (∀ res, b.overlay seg pos g = some res → sameShape b res) := by
  refine ⟨fun res h => fade_sameShape b tg fg st en du res h,
    fun res h => ?_, fun res h => ?_,
    fun res h => overlay_sameShape b seg pos g res hb hseg hcc h⟩
  · unfold AudioBuffer.fade_out at h
    cases hl : b.len with
    | none => rw [hl] at h; simp at h
    | some l => rw [hl] at h; exact fade_sameShape b _ _ _ _ _ res h
  · unfold AudioBuffer.fade_in at h
    exact fade_sameShape b _ _ _ _ _ res h

/-- Witness for C10 on the concrete matching-format buffers `bufA`, `bufB`. -/
theorem mutators_preserve_shape_witness :
    (∀ res, bufA.fade (-6) 0 (some 1) (some 3) none = some res → sameShape bufA res) ∧
    (∀ res, bufA.fade_out 2 = some res → sameShape bufA res) ∧
    (∀ res, bufA.fade_in 2 = some res → sameShape bufA res) ∧
    (∀ res, bufA.overlay bufB 1 (some (-20)) = some res → sameShape bufA res) :=
  mutators_preserve_shape bufA bufB (-6) 0 2 1 (some 1) (some 3) none (some (-20))
    (by simp [AudioBuffer.wf, bufA]) (by simp [AudioBuffer.wf, bufB]) rfl

end Pydub
